import Mathlib

/-!
Shallow embedding of `src/socketio-client/src/client.py` from the
`overleaf-sync-rs` repository.

The script builds a cookie header and connection query parameters from three
command-line strings, opens a socket.io connection, blocks until the `connect`
event is observed, registers a handler for `joinProjectResponse`, polls
`socket_io.wait(1)` until the handler has stored a non-`None` result, then
disconnects (if still connected) and prints the result.

Python values carried in event payloads are embedded as `PyVal`; the
event-driven client flow of `main` is embedded as a deterministic function
`clientRun` over an explicit list of inbound events, producing a log of
observable actions and an outcome.  An infinite-stream variant `pollSteps`
of the polling loop is used to reason about non-termination.
-/

/-- Embedding of the Python values that can appear in a socket.io event
payload: `None`, booleans, integers, strings, lists and dicts
(dicts as association lists of string keys). -/
inductive PyVal where
  | none
  | bool (b : Bool)
  | int (n : Int)
  | str (s : String)
  | list (xs : List PyVal)
  | dict (entries : List (String × PyVal))

/-- Python `x is None` test used by the guard of `while project_infos is None`. -/
def PyVal.isNone : PyVal → Bool
  | .none => true
  | _ => false

/-- Recognizer for mapping (dict) values. -/
def PyVal.isDict : PyVal → Bool
  | .dict _ => true
  | _ => false

/-- Lookup of a key in a Python dict (association list, first binding wins;
an actual Python dict has unique keys). -/
def dictLookup : List (String × PyVal) → String → Option PyVal
  | [], _ => Option.none
  | (k, v) :: rest, key => if k = key then Option.some v else dictLookup rest key

/-- Embedding of the Python attribute call `payload.get(key, default)`:
defined on dicts, where it returns the binding of `key` or `default` when the
key is absent; on any non-dict value the attribute access raises
`AttributeError`, embedded as `Except.error`. -/
def PyVal.get : PyVal → String → PyVal → Except String PyVal
  | .dict entries, key, default =>
      Except.ok (match dictLookup entries key with
        | Option.some v => v
        | Option.none => default)
  | _, _, _ => Except.error "AttributeError"

/-- Embedding of the handler body from client.py lines 25-27:
`project_infos = project_infos_dict.get("project", {})`.
Given the event payload it produces the value stored into the
`project_infos` slot, or an error when the payload has no `.get` attribute. -/
def set_project_infos (project_infos_dict : PyVal) : Except String PyVal :=
  PyVal.get project_infos_dict "project" (PyVal.dict [])

/-- Embedding of client.py line 29:
`cookie = "GCLB=\x7b\x7d; overleaf_session2=\x7b\x7d".format(GCLB, overleaf_session_2)`.
Python `str.format` on this literal template splices the two arguments at the
two placeholder positions. -/
def cookie (GCLB overleaf_session_2 : String) : String :=
  "GCLB=" ++ GCLB ++ "; overleaf_session2=" ++ overleaf_session_2

/-- Embedding of Python `int(x)` on a (non-negative or negative) rational:
truncation toward zero, as performed on the float returned by `time.time()`. -/
def pyInt (q : ℚ) : Int :=
  q.num.tdiv q.den

/-- Embedding of the `params` dict of client.py lines 32-35:
`{'t': int(time.time()), 'projectId': project_id}`, with the current time
passed in explicitly as the rational `now`. -/
def connection_params (now : ℚ) (project_id : String) : List (String × PyVal) :=
  [("t", PyVal.int (pyInt now)), ("projectId", PyVal.str project_id)]

/-- Inbound socket.io events as seen by the client: the `connect`
acknowledgment, a `joinProjectResponse` event carrying a payload, or any
other named event (ignored by the client, which registers no handler for it). -/
inductive Event where
  | connect
  | joinProjectResponse (payload : PyVal)
  | namedEvent (name : String) (payload : PyVal)

/-- Observable actions of one run of `main`, in order of occurrence. -/
inductive Act where
  | observeConnect
  | armJoinProjectHandler
  | waitTick (seconds : Nat)
  | storeResult (v : PyVal)
  | disconnect
  | printResult (v : PyVal)

/-- Outcome of one run of `main` on a finite event trace. -/
inductive Outcome where
  | finished
  | hangWaitingConnect
  | hangWaitingResponse
  | handlerError (msg : String)
  | raisedHandshake (msg : String)

/-- The literal argument of `socket_io.wait(1)` at client.py line 44. -/
def socket_io_wait_arg : Nat := 1

/-- Dispatch of one inbound event against the handler table active during the
polling phase: only `joinProjectResponse` has a handler
(`set_project_infos`); `Option.none` means no handler fired. -/
def dispatchEvent : Event → Option (Except String PyVal)
  | Event.joinProjectResponse payload => Option.some (set_project_infos payload)
  | _ => Option.none

/-- Embedding of `socket_io.wait_for_callbacks()` after `socket_io.on('connect', ...)`
(client.py lines 38-39): consume inbound events until the `connect`
acknowledgment arrives, returning the remaining events; `Option.none` when
`connect` never arrives (the call blocks forever).  Events delivered before
`connect` are dropped: no application handler other than `connect` is armed yet. -/
def wait_for_callbacks : List Event → Option (List Event)
  | [] => Option.none
  | Event.connect :: rest => Option.some rest
  | _ :: rest => wait_for_callbacks rest

/-- Embedding of the polling loop of client.py lines 43-44:
`while project_infos is None: socket_io.wait(1)`, with one inbound event
dispatched per `wait` call.  Returns the action log of the loop, the final
value of the `project_infos` slot, and how the loop ended: `finished` when the
guard became false, `hangWaitingResponse` when the finite trace was exhausted
with the guard still true (the real loop would block forever), or
`handlerError` when the handler raised. -/
def pollLoop : PyVal → List Event → List Act × PyVal × Outcome
  | slot, [] =>
      if slot.isNone then ([], slot, Outcome.hangWaitingResponse)
      else ([], slot, Outcome.finished)
  | slot, ev :: rest =>
      if slot.isNone then
        match dispatchEvent ev with
        | Option.none =>
            let r := pollLoop slot rest
            (Act.waitTick socket_io_wait_arg :: r.1, r.2)
        | Option.some (Except.ok v) =>
            let r := pollLoop v rest
            (Act.waitTick socket_io_wait_arg :: Act.storeResult v :: r.1, r.2)
        | Option.some (Except.error m) =>
            ([Act.waitTick socket_io_wait_arg], slot, Outcome.handlerError m)
      else ([], slot, Outcome.finished)

/-- Infinite-stream variant of the polling loop: value of the `project_infos`
slot after `n` iterations of `while project_infos is None: socket_io.wait(1)`
against the inbound event stream, starting from the Python initialization
`project_infos = None`.  (The loop runs iteration `n` only when the slot is
still `None`; a handler error aborts rather than stores, so the slot is left
unchanged here.) -/
def pollSteps (stream : Nat → Event) : Nat → PyVal
  | 0 => PyVal.none
  | n + 1 =>
      let s := pollSteps stream n
      if s.isNone then
        match dispatchEvent (stream n) with
        | Option.some (Except.ok v) => v
        | _ => s
      else s

/-- The connection handle: `socket_io.connected`. -/
structure SocketConn where
  connected : Bool

/-- Embedding of `socket_io.disconnect()`. -/
def SocketConn.disconnect (c : SocketConn) : SocketConn :=
  { c with connected := false }

/-- Embedding of the teardown of client.py lines 46-47:
`if socket_io.connected: socket_io.disconnect()`.  Returns the connection
state afterwards and the actions performed. -/
def teardown (c : SocketConn) : SocketConn × List Act :=
  if c.connected then (c.disconnect, [Act.disconnect]) else (c, [])

/-- Embedding of the whole flow of `main` (client.py lines 31-49) after
argument parsing: the handshake either raises (`Except.error`, the `SocketIO`
constructor failed) or yields an open connection; then the client waits for
`connect`, arms the `joinProjectResponse` handler, polls until the slot is
non-`None`, tears down, and prints the slot.  Produces the ordered action log
and the outcome. -/
def clientRun (handshake : Except String Unit) (evs : List Event) :
    List Act × Outcome :=
  match handshake with
  | Except.error m => ([], Outcome.raisedHandshake m)
  | Except.ok _ =>
      match wait_for_callbacks evs with
      | Option.none => ([], Outcome.hangWaitingConnect)
      | Option.some rest =>
          let r := pollLoop PyVal.none rest
          match r.2.2 with
          | Outcome.finished =>
              let td := teardown { connected := true }
              (Act.observeConnect :: Act.armJoinProjectHandler ::
                (r.1 ++ td.2 ++ [Act.printResult r.2.1]), Outcome.finished)
          | o => (Act.observeConnect :: Act.armJoinProjectHandler :: r.1, o)

/-- Sequential firing of the `joinProjectResponse` handler over a list of
payloads: each firing overwrites the `project_infos` slot with the extraction
of its own payload; a raising handler aborts the sequence. -/
def applyFirings : PyVal → List PyVal → Except String PyVal
  | slot, [] => Except.ok slot
  | _, p :: ps =>
      match set_project_infos p with
      | Except.ok v => applyFirings v ps
      | Except.error m => Except.error m

/-- The values stored into the `project_infos` slot, in order, as recorded in
an action log. -/
def storedVals (log : List Act) : List PyVal :=
  log.filterMap fun a =>
    match a with
    | Act.storeResult v => Option.some v
    | _ => Option.none

/-- Boolean recognizers on actions, for counting. -/
def Act.isDisconnect : Act → Bool
  | Act.disconnect => true
  | _ => false

/-- Recognizer for the print action. -/
def Act.isPrint : Act → Bool
  | Act.printResult _ => true
  | _ => false

/-- Recognizer for store actions. -/
def Act.isStore : Act → Bool
  | Act.storeResult _ => true
  | _ => false

/-- Recognizer for wait ticks. -/
def Act.isWait : Act → Bool
  | Act.waitTick _ => true
  | _ => false

/-- The cookie header format demanded by the spec, stated independently of the
source construction: the two `name=value` pairs joined by a semicolon and a
space. -/
def specCookieHeader (v1 v2 : String) : String :=
  String.intercalate "; " ["GCLB=" ++ v1, "overleaf_session2=" ++ v2]

/-- Formalization of the order asserted by claim C5: the log closes the
connection exactly once, at a position strictly after the print of the
result. -/
def closedOnceAfterPrint (log : List Act) : Prop :=
  log.countP Act.isDisconnect = 1 ∧
  ∃ i j, log.findIdx? Act.isPrint = Option.some i ∧
    log.findIdx? Act.isDisconnect = Option.some j ∧ i < j

/-- Formalization of claim C2's property at one payload: the extraction
succeeds and yields a mapping. -/
def extractionTotalToMapping (p : PyVal) : Prop :=
  ∃ v, set_project_infos p = Except.ok v ∧ v.isDict = true

/-- The end-to-end event trace of the spec's test scenario: the server
acknowledges `connect`, then emits `joinProjectResponse` with payload
`\x7b"project": \x7b"rootDoc_id": "d1"\x7d\x7d`. -/
def sampleTrace : List Event :=
  [Event.connect,
   Event.joinProjectResponse (PyVal.dict [("project", PyVal.dict [("rootDoc_id", PyVal.str "d1")])])]

theorem PyVal.isNone_iff (v : PyVal) : v.isNone = true ↔ v = PyVal.none := by
  cases v <;> simp [PyVal.isNone]

theorem dictLookup_of_key_not_mem (key : String) :
    ∀ entries : List (String × PyVal), (∀ q ∈ entries, q.1 ≠ key) →
      dictLookup entries key = Option.none := by
  intro entries
  induction entries with
  | nil => intro _; rfl
  | cons kv rest ih =>
    intro h
    have hk : kv.1 ≠ key := h kv (List.mem_cons_self kv rest)
    have : dictLookup (kv :: rest) key =
        if kv.1 = key then Option.some kv.2 else dictLookup rest key := by
      cases kv; rfl
    rw [this, if_neg hk]
    exact ih fun q hq => h q (List.mem_cons_of_mem kv hq)

theorem dictLookup_first_hit (key : String) (v : PyVal) (post : List (String × PyVal)) :
    ∀ pre : List (String × PyVal), (∀ q ∈ pre, q.1 ≠ key) →
      dictLookup (pre ++ (key, v) :: post) key = Option.some v := by
  intro pre
  induction pre with
  | nil => intro _; simp [dictLookup]
  | cons kv rest ih =>
    intro h
    have hk : kv.1 ≠ key := h kv (List.mem_cons_self kv rest)
    have : dictLookup ((kv :: rest) ++ (key, v) :: post) key =
        if kv.1 = key then Option.some kv.2
        else dictLookup (rest ++ (key, v) :: post) key := by
      cases kv; rfl
    rw [this, if_neg hk]
    exact ih fun q hq => h q (List.mem_cons_of_mem kv hq)

theorem pollLoop_of_not_none (evs : List Event) (slot : PyVal)
    (h : slot.isNone = false) :
    pollLoop slot evs = ([], slot, Outcome.finished) := by
  cases evs <;> simp [pollLoop, h]

theorem pollLoop_act_mem (evs : List Event) :
    ∀ (slot : PyVal) (a : Act), a ∈ (pollLoop slot evs).1 →
      a = Act.waitTick socket_io_wait_arg ∨ ∃ w, a = Act.storeResult w := by
  induction evs with
  | nil =>
    intro slot a ha
    cases h : slot.isNone <;> simp [pollLoop, h] at ha
  | cons ev rest ih =>
    intro slot a ha
    cases h : slot.isNone with
    | false => simp [pollLoop, h] at ha
    | true =>
      rcases hd : dispatchEvent ev with _ | e
      · simp only [pollLoop, h, hd, if_true] at ha
        rcases List.mem_cons.mp ha with rfl | ha2
        · exact Or.inl rfl
        · exact ih slot a ha2
      · rcases e with m | v
        · simp only [pollLoop, h, hd, if_true] at ha
          rcases List.mem_cons.mp ha with rfl | ha2
          · exact Or.inl rfl
          · simp at ha2
        · simp only [pollLoop, h, hd, if_true] at ha
          rcases List.mem_cons.mp ha with rfl | ha2
          · exact Or.inl rfl
          · rcases List.mem_cons.mp ha2 with rfl | ha3
            · exact Or.inr ⟨v, rfl⟩
            · exact ih v a ha3

theorem pollLoop_finished_iff (evs : List Event) :
    ∀ slot : PyVal, ((pollLoop slot evs).2.2 = Outcome.finished ↔
      (pollLoop slot evs).2.1.isNone = false) := by
  induction evs with
  | nil =>
    intro slot
    cases h : slot.isNone <;> simp [pollLoop, h]
  | cons ev rest ih =>
    intro slot
    cases h : slot.isNone with
    | false => simp [pollLoop, h]
    | true =>
      rcases hd : dispatchEvent ev with _ | e
      · simpa only [pollLoop, h, hd, if_true] using ih slot
      · rcases e with m | v
        · simp [pollLoop, h, hd]
        · simpa only [pollLoop, h, hd, if_true] using ih v

theorem storedVals_cons_wait (s : Nat) (log : List Act) :
    storedVals (Act.waitTick s :: log) = storedVals log := by
  simp [storedVals]

theorem storedVals_cons_store (v : PyVal) (log : List Act) :
    storedVals (Act.storeResult v :: log) = v :: storedVals log := by
  simp [storedVals]

theorem pollLoop_finished_stores (evs : List Event) :
    ∀ slot : PyVal, slot.isNone = true →
      (pollLoop slot evs).2.2 = Outcome.finished →
      ∃ k, storedVals (pollLoop slot evs).1 =
        List.replicate k PyVal.none ++ [(pollLoop slot evs).2.1] := by
  induction evs with
  | nil =>
    intro slot hs h
    simp [pollLoop, hs] at h
  | cons ev rest ih =>
    intro slot hs h
    rcases hd : dispatchEvent ev with _ | e
    · simp only [pollLoop, hs, hd, if_true] at h ⊢
      rcases ih slot hs h with ⟨k, hk⟩
      exact ⟨k, by simpa [storedVals_cons_wait] using hk⟩
    · rcases e with m | v
      · simp [pollLoop, hs, hd] at h
      · simp only [pollLoop, hs, hd, if_true] at h ⊢
        cases hv : v.isNone with
        | false =>
          rw [pollLoop_of_not_none rest v hv] at h ⊢
          exact ⟨0, by simp [storedVals_cons_wait, storedVals_cons_store, storedVals]⟩
        | true =>
          rcases ih v hv h with ⟨k, hk⟩
          refine ⟨k + 1, ?_⟩
          rw [storedVals_cons_wait, storedVals_cons_store, hk,
            (PyVal.isNone_iff v).mp hv]
          simp [List.replicate_succ]

theorem clientRun_error_eq (m : String) (evs : List Event) :
    clientRun (Except.error m) evs = ([], Outcome.raisedHandshake m) := rfl

theorem clientRun_no_connect (u : Unit) (evs : List Event)
    (h : wait_for_callbacks evs = Option.none) :
    clientRun (Except.ok u) evs = ([], Outcome.hangWaitingConnect) := by
  simp [clientRun, h]

theorem clientRun_finished_shape (hs : Except String Unit) (evs : List Event)
    (h : (clientRun hs evs).2 = Outcome.finished) :
    ∃ rest, wait_for_callbacks evs = Option.some rest ∧
      (pollLoop PyVal.none rest).2.2 = Outcome.finished ∧
      (clientRun hs evs).1 =
        Act.observeConnect :: Act.armJoinProjectHandler ::
          ((pollLoop PyVal.none rest).1 ++
            [Act.disconnect, Act.printResult (pollLoop PyVal.none rest).2.1]) := by
  cases hs with
  | error m => simp [clientRun] at h
  | ok u =>
    rcases hw : wait_for_callbacks evs with _ | rest
    · simp [clientRun, hw] at h
    · refine ⟨rest, rfl, ?_, ?_⟩
      · rcases ho : (pollLoop PyVal.none rest).2.2 <;>
          simp [clientRun, hw, ho] at h ⊢
      · rcases ho : (pollLoop PyVal.none rest).2.2 <;>
          simp [clientRun, hw, ho, teardown] at h ⊢

theorem clientRun_not_finished_shape (hs : Except String Unit) (evs : List Event)
    (h : ¬ (clientRun hs evs).2 = Outcome.finished) :
    (clientRun hs evs).1 = [] ∨
    ∃ rest, wait_for_callbacks evs = Option.some rest ∧
      (clientRun hs evs).1 =
        Act.observeConnect :: Act.armJoinProjectHandler :: (pollLoop PyVal.none rest).1 := by
  cases hs with
  | error m => exact Or.inl rfl
  | ok u =>
    rcases hw : wait_for_callbacks evs with _ | rest
    · exact Or.inl (by simp [clientRun, hw])
    · refine Or.inr ⟨rest, rfl, ?_⟩
      rcases ho : (pollLoop PyVal.none rest).2.2 <;>
        simp [clientRun, hw, ho, teardown] at h ⊢

theorem pollLoop_countP_isDisconnect (evs : List Event) (slot : PyVal) :
    (pollLoop slot evs).1.countP Act.isDisconnect = 0 :=
  List.countP_eq_zero.mpr (fun a ha => by
    rcases pollLoop_act_mem evs slot a ha with rfl | ⟨w, rfl⟩ <;>
      simp [Act.isDisconnect])

theorem pollLoop_countP_isPrint (evs : List Event) (slot : PyVal) :
    (pollLoop slot evs).1.countP Act.isPrint = 0 :=
  List.countP_eq_zero.mpr (fun a ha => by
    rcases pollLoop_act_mem evs slot a ha with rfl | ⟨w, rfl⟩ <;>
      simp [Act.isPrint])

theorem storedVals_append (l1 l2 : List Act) :
    storedVals (l1 ++ l2) = storedVals l1 ++ storedVals l2 := by
  simp [storedVals]

theorem applyFirings_last (p v : PyVal) (hv : set_project_infos p = Except.ok v) :
    ∀ ps : List PyVal, (∀ q ∈ ps, ∃ w, set_project_infos q = Except.ok w) →
      ∀ init : PyVal, applyFirings init (ps ++ [p]) = Except.ok v := by
  intro ps
  induction ps with
  | nil => intro _ init; simp [applyFirings, hv]
  | cons q qs ih =>
    intro h init
    rcases h q (List.mem_cons_self q qs) with ⟨w, hw⟩
    simp only [List.cons_append, applyFirings, hw]
    exact ih (fun r hr => h r (List.mem_cons_of_mem q hr)) w

theorem pollSteps_none_of_no_response (stream : Nat → Event)
    (h : ∀ i p, stream i ≠ Event.joinProjectResponse p) :
    ∀ n, pollSteps stream n = PyVal.none := by
  intro n
  induction n with
  | zero => rfl
  | succ k ih =>
    have hd : dispatchEvent (stream k) = Option.none := by
      rcases he : stream k with _ | p | ⟨nm, p⟩
      · rfl
      · exact absurd he (h k p)
      · rfl
    simp [pollSteps, ih, PyVal.isNone, hd]

theorem clientRun_waitTick_arg (hs : Except String Unit) (evs : List Event)
    (s : Nat) (h : Act.waitTick s ∈ (clientRun hs evs).1) :
    s = socket_io_wait_arg := by
  by_cases hf : (clientRun hs evs).2 = Outcome.finished
  · rcases clientRun_finished_shape hs evs hf with ⟨rest, -, -, hlog⟩
    rw [hlog] at h
    rcases List.mem_cons.mp h with heq | h2
    · cases heq
    rcases List.mem_cons.mp h2 with heq | h3
    · cases heq
    rcases List.mem_append.mp h3 with h4 | h5
    · rcases pollLoop_act_mem rest PyVal.none _ h4 with heq | ⟨w, heq⟩
      · cases heq; rfl
      · cases heq
    · rcases List.mem_cons.mp h5 with heq | h6
      · cases heq
      rcases List.mem_cons.mp h6 with heq | h7
      · cases heq
      · simp at h7
  · rcases clientRun_not_finished_shape hs evs hf with hlog | ⟨rest, -, hlog⟩
    · rw [hlog] at h; simp at h
    · rw [hlog] at h
      rcases List.mem_cons.mp h with heq | h2
      · cases heq
      rcases List.mem_cons.mp h2 with heq | h3
      · cases heq
      rcases pollLoop_act_mem rest PyVal.none _ h3 with heq | ⟨w, heq⟩
      · cases heq; rfl
      · cases heq

/-- C1: for every `joinProjectResponse` payload that is a mapping, the Response
Waiter's extraction returns the value stored at key `project`, and the empty
mapping when the key is absent; in particular it maps the payload binding
`project` to the mapping with `id` `p1` and `name` `Doc` to that mapping, and
the empty payload to the empty mapping. -/
theorem C1_extraction_rule (pre post entries : List (String × PyVal)) (v : PyVal) :
    (entries = pre ++ ("project", v) :: post → (∀ q ∈ pre, q.1 ≠ "project") →
      set_project_infos (PyVal.dict entries) = Except.ok v) ∧
    ((∀ q ∈ entries, q.1 ≠ "project") →
      set_project_infos (PyVal.dict entries) = Except.ok (PyVal.dict [])) ∧
    set_project_infos
        (PyVal.dict [("project", PyVal.dict [("id", PyVal.str "p1"), ("name", PyVal.str "Doc")])]) =
      Except.ok (PyVal.dict [("id", PyVal.str "p1"), ("name", PyVal.str "Doc")]) ∧
    set_project_infos (PyVal.dict []) = Except.ok (PyVal.dict []) := by
  refine ⟨?_, ?_, rfl, rfl⟩
  · intro he hpre
    subst he
    simp [set_project_infos, PyVal.get, dictLookup_first_hit "project" v post pre hpre]
  · intro h
    simp [set_project_infos, PyVal.get, dictLookup_of_key_not_mem "project" entries h]

theorem C1_extraction_rule_witness :
    set_project_infos (PyVal.dict [("a", PyVal.int 1), ("project", PyVal.str "z")]) =
      Except.ok (PyVal.str "z") ∧
    set_project_infos (PyVal.dict [("b", PyVal.int 2)]) = Except.ok (PyVal.dict []) :=
  ⟨(C1_extraction_rule [("a", PyVal.int 1)] [] [("a", PyVal.int 1), ("project", PyVal.str "z")]
      (PyVal.str "z")).1 rfl (by decide),
   (C1_extraction_rule [] [] [("b", PyVal.int 2)] (PyVal.str "z")).2.1 (by decide)⟩

/-- C2 counterexample: the extraction does not accept every payload shape:
on the non-mapping payload `"x"` it raises `AttributeError` rather than
yielding a mapping, and on the mapping payload binding `project` to the
integer `7` it yields `7`, which is not a mapping. -/
theorem C2_counterexample :
    ¬ extractionTotalToMapping (PyVal.str "x") ∧
    set_project_infos (PyVal.dict [("project", PyVal.int 7)]) = Except.ok (PyVal.int 7) ∧
    (PyVal.int 7).isDict = false := by
  refine ⟨?_, rfl, rfl⟩
  rintro ⟨v, hv, -⟩
  exact Except.noConfusion hv

/-- C2 (amended): for every payload that is a mapping, the extraction never
raises — it yields the value bound to key `project` (any value, not
necessarily a mapping), or the empty mapping when the key is absent; for
every payload that is not a mapping, the extraction raises `AttributeError`. -/
theorem C2_extraction_total_on_mappings (entries : List (String × PyVal)) (p : PyVal) :
    (∃ v, set_project_infos (PyVal.dict entries) = Except.ok v) ∧
    (p.isDict = false → set_project_infos p = Except.error "AttributeError") := by
  constructor
  · exact ⟨_, rfl⟩
  · intro h
    cases p
    case dict => simp [PyVal.isDict] at h
    all_goals rfl

theorem C2_extraction_total_on_mappings_witness :
    (∃ v, set_project_infos (PyVal.dict [("k", PyVal.none)]) = Except.ok v) ∧
    set_project_infos (PyVal.int 3) = Except.error "AttributeError" :=
  ⟨(C2_extraction_total_on_mappings [("k", PyVal.none)] (PyVal.int 3)).1,
   (C2_extraction_total_on_mappings [("k", PyVal.none)] (PyVal.int 3)).2 rfl⟩

/-- C3: for every pair of cookie tokens and project identifier, the Session
Builder produces exactly the cookie header `GCLB=<v1>; overleaf_session2=<v2>`
and exactly the query parameters `t` = the current Unix time truncated to
whole seconds (an integer, taken at construction time) and `projectId` = the
supplied identifier. -/
theorem C3_session_builder (v1 v2 project_id : String) (q : ℚ) (hq : 0 ≤ q) :
    cookie v1 v2 = specCookieHeader v1 v2 ∧
    connection_params q project_id =
      [("t", PyVal.int ⌊q⌋), ("projectId", PyVal.str project_id)] := by
  constructor
  · simp only [cookie, specCookieHeader, String.intercalate, String.intercalate.go,
      String.append_assoc]
    rw [← String.append_assoc "; " "overleaf_session2=" v2]
    rfl
  · have h1 : 0 ≤ q.num := Rat.num_nonneg.mpr hq
    have h2 : (0 : Int) ≤ (q.den : Int) := Int.ofNat_nonneg _
    simp [connection_params, pyInt, Int.tdiv_eq_ediv h1 h2, Rat.floor_def]

theorem C3_session_builder_witness :
    (0 : ℚ) ≤ 5 ∧
    (cookie "abc" "xyz" = specCookieHeader "abc" "xyz" ∧
     connection_params 5 "60f" =
       [("t", PyVal.int ⌊(5 : ℚ)⌋), ("projectId", PyVal.str "60f")]) :=
  ⟨by norm_num, C3_session_builder "abc" "xyz" "60f" 5 (by norm_num)⟩

/-- C4: in every run, the `connect` acknowledgment is observed strictly before
the `joinProjectResponse` handler is registered; the handler is never armed
without `connect` having been delivered; nothing at all happens unless
`connect` is observed; and when `connect` never arrives the flow blocks on the
connect wait forever. -/
theorem C4_connect_before_arm (hs : Except String Unit) (evs : List Event) :
    (Act.armJoinProjectHandler ∈ (clientRun hs evs).1 →
      ∃ tail, (clientRun hs evs).1 =
        Act.observeConnect :: Act.armJoinProjectHandler :: tail) ∧
    (Act.observeConnect ∉ (clientRun hs evs).1 → (clientRun hs evs).1 = []) ∧
    (wait_for_callbacks evs = Option.none →
      clientRun (Except.ok ()) evs = ([], Outcome.hangWaitingConnect)) := by
  refine ⟨?_, ?_, clientRun_no_connect ()  evs⟩ <;>
  · by_cases h : (clientRun hs evs).2 = Outcome.finished
    · rcases clientRun_finished_shape hs evs h with ⟨rest, -, -, hlog⟩
      rw [hlog]
      first
      | exact fun _ => ⟨_, rfl⟩
      | exact fun hno => absurd (List.mem_cons_self _ _) hno
    · rcases clientRun_not_finished_shape hs evs h with hlog | ⟨rest, -, hlog⟩
      · rw [hlog]
        first
        | exact fun hm => absurd hm (List.not_mem_nil _)
        | exact fun _ => rfl
      · rw [hlog]
        first
        | exact fun _ => ⟨_, rfl⟩
        | exact fun hno => absurd (List.mem_cons_self _ _) hno

theorem C4_connect_before_arm_witness :
    ∃ tail, (clientRun (Except.ok ()) sampleTrace).1 =
      Act.observeConnect :: Act.armJoinProjectHandler :: tail :=
  (C4_connect_before_arm (Except.ok ()) sampleTrace).1
    (List.mem_cons_of_mem _ (List.mem_cons_self _ _))

/-- C5 counterexample: on the spec's own end-to-end scenario trace the run
finishes, but the close of the connection does NOT happen after the result is
printed: the log places the single `disconnect` at index 4 and the print at
index 5. -/
theorem C5_counterexample :
    (clientRun (Except.ok ()) sampleTrace).2 = Outcome.finished ∧
    ¬ closedOnceAfterPrint (clientRun (Except.ok ()) sampleTrace).1 := by
  refine ⟨rfl, ?_⟩
  rintro ⟨-, i, j, hi, hj, hij⟩
  have hip : (clientRun (Except.ok ()) sampleTrace).1.findIdx? Act.isPrint =
      Option.some 5 := rfl
  have hjd : (clientRun (Except.ok ()) sampleTrace).1.findIdx? Act.isDisconnect =
      Option.some 4 := rfl
  rw [hip] at hi
  rw [hjd] at hj
  cases hi
  cases hj
  exact absurd hij (by decide)

/-- C5 (amended): in every successful end-to-end run the connection is closed
exactly once, and that close happens immediately BEFORE (not after) the
extracted project-metadata mapping is printed to standard output. -/
theorem C5_close_once_then_print (hs : Except String Unit) (evs : List Event)
    (h : (clientRun hs evs).2 = Outcome.finished) :
    (clientRun hs evs).1.countP Act.isDisconnect = 1 ∧
    ∃ pre v, (∀ a ∈ pre, Act.isDisconnect a = false) ∧
      (clientRun hs evs).1 = pre ++ [Act.disconnect, Act.printResult v] := by
  rcases clientRun_finished_shape hs evs h with ⟨rest, -, -, hlog⟩
  constructor
  · rw [hlog]
    simp [List.countP_cons, List.countP_append, pollLoop_countP_isDisconnect,
      Act.isDisconnect]
  · refine ⟨Act.observeConnect :: Act.armJoinProjectHandler ::
      (pollLoop PyVal.none rest).1, (pollLoop PyVal.none rest).2.1, ?_, ?_⟩
    · intro a ha
      rcases List.mem_cons.mp ha with rfl | ha2
      · rfl
      rcases List.mem_cons.mp ha2 with rfl | ha3
      · rfl
      rcases pollLoop_act_mem rest PyVal.none a ha3 with rfl | ⟨w, rfl⟩ <;> rfl
    · rw [hlog]; simp

theorem C5_close_once_then_print_witness :
    (clientRun (Except.ok ()) sampleTrace).2 = Outcome.finished ∧
    (clientRun (Except.ok ()) sampleTrace).1.countP Act.isDisconnect = 1 :=
  ⟨rfl, (C5_close_once_then_print (Except.ok ()) sampleTrace rfl).1⟩

/-- C6: disconnect is attempted at most once per invocation, only after a
non-null result has been stored (never while the pending request is still
outstanding), and only through the guard `if socket_io.connected`; invoking
the teardown on an already-closed connection is a no-op that performs no
disconnect and does not raise, so the connection transitions to Closed at
most once. -/
theorem C6_teardown_discipline (hs : Except String Unit) (evs : List Event) :
    (clientRun hs evs).1.countP Act.isDisconnect ≤ 1 ∧
    (Act.disconnect ∈ (clientRun hs evs).1 →
      ∃ pre post v, (clientRun hs evs).1 = pre ++ Act.disconnect :: post ∧
        Act.storeResult v ∈ pre ∧ v.isNone = false) ∧
    teardown { connected := true } = ({ connected := false }, [Act.disconnect]) ∧
    teardown { connected := false } = ({ connected := false }, []) := by
  refine ⟨?_, ?_, rfl, rfl⟩
  · by_cases h : (clientRun hs evs).2 = Outcome.finished
    · rcases clientRun_finished_shape hs evs h with ⟨rest, -, -, hlog⟩
      rw [hlog]
      simp [List.countP_cons, List.countP_append, pollLoop_countP_isDisconnect,
        Act.isDisconnect]
    · rcases clientRun_not_finished_shape hs evs h with hlog | ⟨rest, -, hlog⟩
      · rw [hlog]; simp
      · rw [hlog]
        simp [List.countP_cons, pollLoop_countP_isDisconnect, Act.isDisconnect]
  · intro hmem
    by_cases h : (clientRun hs evs).2 = Outcome.finished
    · rcases clientRun_finished_shape hs evs h with ⟨rest, -, hfin, hlog⟩
      have hstores := pollLoop_finished_stores rest PyVal.none rfl hfin
      rcases hstores with ⟨k, hk⟩
      have hvmem : (pollLoop PyVal.none rest).2.1 ∈
          storedVals (pollLoop PyVal.none rest).1 := by
        rw [hk]
        exact List.mem_append_right _ (List.mem_singleton.mpr rfl)
      rcases List.mem_filterMap.mp hvmem with ⟨a, ha, hfa⟩
      have hstore : a = Act.storeResult (pollLoop PyVal.none rest).2.1 := by
        rcases pollLoop_act_mem rest PyVal.none a ha with rfl | ⟨w, rfl⟩
        · simp at hfa
        · simp at hfa
          rw [hfa]
      refine ⟨Act.observeConnect :: Act.armJoinProjectHandler ::
        (pollLoop PyVal.none rest).1,
        [Act.printResult (pollLoop PyVal.none rest).2.1],
        (pollLoop PyVal.none rest).2.1, ?_, ?_, ?_⟩
      · rw [hlog]; simp
      · exact List.mem_cons_of_mem _ (List.mem_cons_of_mem _ (hstore ▸ ha))
      · exact (pollLoop_finished_iff rest PyVal.none).mp hfin
    · exfalso
      rcases clientRun_not_finished_shape hs evs h with hlog | ⟨rest, -, hlog⟩
      · rw [hlog] at hmem; simp at hmem
      · rw [hlog] at hmem
        rcases List.mem_cons.mp hmem with heq | hm2
        · cases heq
        rcases List.mem_cons.mp hm2 with heq | hm3
        · cases heq
        rcases pollLoop_act_mem rest PyVal.none _ hm3 with heq | ⟨w, heq⟩ <;>
          cases heq

theorem C6_teardown_discipline_witness :
    (clientRun (Except.ok ()) sampleTrace).1.countP Act.isDisconnect ≤ 1 ∧
    (∃ pre post v,
      (clientRun (Except.ok ()) sampleTrace).1 = pre ++ Act.disconnect :: post ∧
      Act.storeResult v ∈ pre ∧ v.isNone = false) ∧
    teardown { connected := false } = ({ connected := false }, []) :=
  ⟨(C6_teardown_discipline (Except.ok ()) sampleTrace).1,
   (C6_teardown_discipline (Except.ok ()) sampleTrace).2.1
     (List.mem_cons_of_mem _ (List.mem_cons_of_mem _
       (List.mem_append_left _ (List.mem_append_right _ (List.mem_cons_self _ _))))),
   (C6_teardown_discipline (Except.ok ()) sampleTrace).2.2.2⟩

/-- C7: the response wait is a polling loop re-entering the event-dispatch
loop with the fixed granularity of 1 time unit per iteration (every wait tick
in any run carries the literal argument 1); the loop terminates exactly when
the captured result is non-null; and no timeout is enforced: if no
`joinProjectResponse` event ever arrives, the slot stays null after every
number of iterations, so the wait blocks indefinitely. -/
theorem C7_polling_loop (hs : Except String Unit) (evs : List Event) (s : Nat)
    (slot : PyVal) (stream : Nat → Event) (n : Nat) :
    socket_io_wait_arg = 1 ∧
    (Act.waitTick s ∈ (clientRun hs evs).1 → s = 1) ∧
    ((pollLoop slot evs).2.2 = Outcome.finished ↔
      (pollLoop slot evs).2.1.isNone = false) ∧
    ((∀ i p, stream i ≠ Event.joinProjectResponse p) →
      pollSteps stream n = PyVal.none) :=
  ⟨rfl,
   fun h => clientRun_waitTick_arg hs evs s h,
   pollLoop_finished_iff evs slot,
   fun hno => pollSteps_none_of_no_response stream hno n⟩

theorem C7_polling_loop_witness :
    socket_io_wait_arg = 1 ∧
    pollSteps (fun _ => Event.connect) 3 = PyVal.none ∧
    (Act.waitTick 1 ∈ (clientRun (Except.ok ()) sampleTrace).1 → 1 = 1) :=
  ⟨(C7_polling_loop (Except.ok ()) sampleTrace 1 PyVal.none (fun _ => Event.connect) 3).1,
   (C7_polling_loop (Except.ok ()) sampleTrace 1 PyVal.none (fun _ => Event.connect) 3).2.2.2
     (fun _ _ h => Event.noConfusion h),
   (C7_polling_loop (Except.ok ()) sampleTrace 1 PyVal.none (fun _ => Event.connect) 3).2.1⟩

/-- C8: a transport/handshake error raised during connection establishment is
neither caught nor retried: the run performs no actions, stores no partial
result, and its outcome is the propagated error itself, distinct from
successful completion (in the script, the uncaught exception terminates the
process with a non-zero exit). -/
theorem C8_handshake_error (m : String) (evs : List Event) :
    clientRun (Except.error m) evs = ([], Outcome.raisedHandshake m) ∧
    Outcome.raisedHandshake m ≠ Outcome.finished ∧
    storedVals (clientRun (Except.error m) evs).1 = [] :=
  ⟨rfl, fun h => Outcome.noConfusion h, rfl⟩

theorem C8_handshake_error_witness :
    clientRun (Except.error "ConnectionError") [Event.connect] =
      ([], Outcome.raisedHandshake "ConnectionError") :=
  (C8_handshake_error "ConnectionError" [Event.connect]).1

/-- C9: when a `joinProjectResponse` payload is a mapping binding `project` to
`None`, the handler stores `None` in the result slot and the wait loop does
not terminate — after every number of iterations the slot is still `None`,
and on the finite trace the run hangs waiting for a response.  The
empty-mapping default applies only when the key `project` is absent, not when
it is present with a null value. -/
theorem C9_null_project (n : Nat) :
    set_project_infos (PyVal.dict [("project", PyVal.none)]) = Except.ok PyVal.none ∧
    pollSteps (fun _ => Event.joinProjectResponse (PyVal.dict [("project", PyVal.none)])) n =
      PyVal.none ∧
    (clientRun (Except.ok ())
        [Event.connect, Event.joinProjectResponse (PyVal.dict [("project", PyVal.none)])]).2 =
      Outcome.hangWaitingResponse ∧
    set_project_infos (PyVal.dict []) = Except.ok (PyVal.dict []) ∧
    PyVal.dict [] ≠ PyVal.none := by
  refine ⟨rfl, ?_, rfl, rfl, fun h => PyVal.noConfusion h⟩
  induction n with
  | zero => rfl
  | succ k ih =>
    simp only [pollSteps, ih]
    rfl

theorem C9_null_project_witness :
    pollSteps (fun _ => Event.joinProjectResponse (PyVal.dict [("project", PyVal.none)])) 2 =
      PyVal.none :=
  (C9_null_project 2).2.1

/-- C10: the result slot has no one-shot guard: every handler firing
overwrites the slot with the extraction of its own payload, so after any
sequence of firings the slot equals the extraction of the most recently
processed payload; and in every successful run the value printed is the
slot's value at the first poll-loop check at which it is non-null (all
earlier stored values were null). -/
theorem C10_overwrite_and_print (init p v : PyVal) (ps : List PyVal)
    (hs : Except String Unit) (evs : List Event) :
    (set_project_infos p = Except.ok v →
      (∀ q ∈ ps, ∃ w, set_project_infos q = Except.ok w) →
      applyFirings init (ps ++ [p]) = Except.ok v) ∧
    ((clientRun hs evs).2 = Outcome.finished →
      ∃ pre k w, w.isNone = false ∧
        (clientRun hs evs).1 = pre ++ [Act.disconnect, Act.printResult w] ∧
        storedVals (clientRun hs evs).1 = List.replicate k PyVal.none ++ [w]) := by
  constructor
  · intro hv hps
    exact applyFirings_last p v hv ps hps init
  · intro h
    rcases clientRun_finished_shape hs evs h with ⟨rest, -, hfin, hlog⟩
    rcases pollLoop_finished_stores rest PyVal.none rfl hfin with ⟨k, hk⟩
    refine ⟨Act.observeConnect :: Act.armJoinProjectHandler ::
      (pollLoop PyVal.none rest).1, k, (pollLoop PyVal.none rest).2.1,
      (pollLoop_finished_iff rest PyVal.none).mp hfin, ?_, ?_⟩
    · rw [hlog]; simp
    · rw [hlog]
      have : storedVals (Act.observeConnect :: Act.armJoinProjectHandler ::
          ((pollLoop PyVal.none rest).1 ++
            [Act.disconnect, Act.printResult (pollLoop PyVal.none rest).2.1])) =
          storedVals (pollLoop PyVal.none rest).1 := by
        simp [storedVals]
      rw [this, hk]

theorem C10_overwrite_and_print_witness :
    applyFirings PyVal.none
      [PyVal.dict [("project", PyVal.int 1)], PyVal.dict [("project", PyVal.int 2)]] =
      Except.ok (PyVal.int 2) ∧
    (∃ pre k w, w.isNone = false ∧
      (clientRun (Except.ok ()) sampleTrace).1 = pre ++ [Act.disconnect, Act.printResult w] ∧
      storedVals (clientRun (Except.ok ()) sampleTrace).1 =
        List.replicate k PyVal.none ++ [w]) :=
  ⟨(C10_overwrite_and_print PyVal.none (PyVal.dict [("project", PyVal.int 2)]) (PyVal.int 2)
      [PyVal.dict [("project", PyVal.int 1)]] (Except.ok ()) sampleTrace).1 rfl
      (by
        rintro q hq
        rcases List.mem_singleton.mp hq with rfl
        exact ⟨PyVal.int 1, rfl⟩),
   (C10_overwrite_and_print PyVal.none (PyVal.dict [("project", PyVal.int 2)]) (PyVal.int 2)
      [PyVal.dict [("project", PyVal.int 1)]] (Except.ok ()) sampleTrace).2 rfl⟩
